import Mathlib

/-
Verification of simplechain's transaction core (src/transactions.rs):
the transaction data model, its canonical bincode encoding, SHA-256
digests, the Schnorr sign/verify protocol (the external secp256k1
primitives are abstracted as a model structure), the hex/base58 text
codecs, and the pending-transaction store.
-/

namespace Simplechain

/-! ## SHA-256 (the `sha2` crate's hash function, implemented concretely) -/

/-- Truncation to a 32-bit word. -/
def w32 (x : Nat) : Nat := x % 4294967296

/-- Right rotation of a 32-bit word by `k` bits. -/
def rotr32 (k x : Nat) : Nat := w32 ((x >>> k) ||| (x <<< (32 - k)))

/-- SHA-256 choice function. -/
def shaCh (x y z : Nat) : Nat := (x &&& y) ^^^ ((x ^^^ 4294967295) &&& z)

/-- SHA-256 majority function. -/
def shaMaj (x y z : Nat) : Nat := (x &&& y) ^^^ (x &&& z) ^^^ (y &&& z)

/-- SHA-256 big Sigma0. -/
def sumA (x : Nat) : Nat := rotr32 2 x ^^^ (rotr32 13 x ^^^ rotr32 22 x)

/-- SHA-256 big Sigma1. -/
def sumE (x : Nat) : Nat := rotr32 6 x ^^^ (rotr32 11 x ^^^ rotr32 25 x)

/-- SHA-256 small sigma0 (schedule mixing). -/
def mixA (x : Nat) : Nat := rotr32 7 x ^^^ (rotr32 18 x ^^^ (x >>> 3))

/-- SHA-256 small sigma1 (schedule mixing). -/
def mixE (x : Nat) : Nat := rotr32 17 x ^^^ (rotr32 19 x ^^^ (x >>> 10))

/-- The eight 32-bit working variables of the SHA-256 compression function. -/
structure Sha256State where
  a : Nat
  b : Nat
  c : Nat
  d : Nat
  e : Nat
  f : Nat
  g : Nat
  hh : Nat
deriving DecidableEq

/-- One SHA-256 compression round; `kw` is the round constant paired with
the schedule word. -/
def sha256Round (s : Sha256State) (kw : Nat × Nat) : Sha256State :=
  let t1 := w32 (s.hh + sumE s.e + shaCh s.e s.f s.g + kw.1 + kw.2)
  let t2 := w32 (sumA s.a + shaMaj s.a s.b s.c)
  ⟨w32 (t1 + t2), s.a, s.b, s.c, w32 (s.d + t1), s.e, s.f, s.g⟩

/-- The 64 SHA-256 round constants of FIPS 180-4, written in decimal. -/
def sha256K : List Nat :=
  [1116352408, 1899447441, 3049323471, 3921009573, 961987163, 1508970993,
   2453635748, 2870763221, 3624381080, 310598401, 607225278, 1426881987,
   1925078388, 2162078206, 2614888103, 3248222580, 3835390401, 4022224774,
   264347078, 604807628, 770255983, 1249150122, 1555081692, 1996064986,
   2554220882, 2821834349, 2952996808, 3210313671, 3336571891, 3584528711,
   113926993, 338241895, 666307205, 773529912, 1294757372, 1396182291,
   1695183700, 1986661051, 2177026350, 2456956037, 2730485921, 2820302411,
   3259730800, 3345764771, 3516065817, 3600352804, 4094571909, 275423344,
   430227734, 506948616, 659060556, 883997877, 958139571, 1322822218,
   1537002063, 1747873779, 1955562222, 2024104815, 2227730452, 2361852424,
   2428436474, 2756734187, 3204031479, 3329325298]

/-- Big-endian 32-bit words from a byte list (groups of four bytes). -/
def wordsBE : List Nat → List Nat
  | b0 :: b1 :: b2 :: b3 :: rest =>
      (b0 * 16777216 + b1 * 65536 + b2 * 256 + b3) :: wordsBE rest
  | _ => []

/-- Extend the (reversed) message schedule by `n` further words; the head
of `rws` is the most recent word. -/
def extendSchedule : List Nat → Nat → List Nat
  | rws, 0 => rws
  | rws, n + 1 =>
      let nw := w32 (mixE (rws.getD 1 0) + rws.getD 6 0 + mixA (rws.getD 14 0) + rws.getD 15 0)
      extendSchedule (nw :: rws) n

/-- Process one 64-byte block. -/
def sha256Block (s : Sha256State) (block : List Nat) : Sha256State :=
  let ws := (extendSchedule (wordsBE block).reverse 48).reverse
  let t := (sha256K.zip ws).foldl sha256Round s
  ⟨w32 (s.a + t.a), w32 (s.b + t.b), w32 (s.c + t.c), w32 (s.d + t.d),
   w32 (s.e + t.e), w32 (s.f + t.f), w32 (s.g + t.g), w32 (s.hh + t.hh)⟩

/-- Big-endian bytes of a 32-bit word. -/
def bytesBE4 (x : Nat) : List Nat :=
  [x / 16777216 % 256, x / 65536 % 256, x / 256 % 256, x % 256]

/-- Big-endian bytes of a 64-bit word. -/
def bytesBE8 (x : Nat) : List Nat := bytesBE4 (x / 4294967296) ++ bytesBE4 x

/-- SHA-256 message padding: append `0x80`, zeros to 56 mod 64, and the
bit length as a 64-bit big-endian integer. -/
def sha256Pad (msg : List Nat) : List Nat :=
  msg ++ 128 :: (List.replicate ((119 - msg.length % 64) % 64) 0 ++ bytesBE8 (8 * msg.length))

/-- Split into 64-byte chunks; the first argument is structural fuel
(one unit per chunk suffices since each chunk removes at least one byte). -/
def chunk64 : Nat → List Nat → List (List Nat)
  | 0, _ => []
  | _ + 1, [] => []
  | fuel + 1, x :: xs => ((x :: xs).take 64) :: chunk64 fuel ((x :: xs).drop 64)

/-- The SHA-256 initial state (FIPS 180-4 initial hash values, decimal). -/
def sha256Init : Sha256State :=
  ⟨1779033703, 3144134277, 1013904242, 2773480762,
   1359893119, 2600822924, 528734635, 1541459225⟩

/-- SHA-256 of a byte list, as the 32 bytes of the final state. -/
def sha256 (msg : List Nat) : List Nat :=
  let padded := sha256Pad msg
  let s := (chunk64 padded.length padded).foldl sha256Block sha256Init
  bytesBE4 s.a ++ bytesBE4 s.b ++ bytesBE4 s.c ++ bytesBE4 s.d ++
  bytesBE4 s.e ++ bytesBE4 s.f ++ bytesBE4 s.g ++ bytesBE4 s.hh

/-- A SHA-256 digest always has exactly 32 bytes. -/
theorem sha256_length (msg : List Nat) : (sha256 msg).length = 32 := by
  simp [sha256, bytesBE4]

/-! ## Data model (`TransactionContent`, `TransactionSigned`, `Transaction`)

Bytes are modelled as `List Nat` (each entry a byte value), `i32` as `Int`
constrained by `i32Range`, `i64` as `Int` constrained by `i64Range`. -/

/-- Rust `struct TransactionContent` (transactions.rs): the payload. -/
structure TransactionContent where
  sender_addr : List Nat
  sender_pubkey : List Nat
  receiver_addr : List Nat
  amount : Int
  timestamp : Int
deriving DecidableEq

/-- Rust `struct TransactionSigned`: content plus detached signature. -/
structure TransactionSigned where
  content : TransactionContent
  signature : List Nat
deriving DecidableEq

/-- Rust `struct Transaction`: id plus signed transaction. -/
structure Transaction where
  id : List Nat
  transaction : TransactionSigned
deriving DecidableEq

/-- The value range of Rust `i32`. -/
def i32Range (x : Int) : Prop := -2147483648 ≤ x ∧ x < 2147483648

/-- The value range of Rust `i64`. -/
def i64Range (x : Int) : Prop := -9223372036854775808 ≤ x ∧ x < 9223372036854775808

instance (x : Int) : Decidable (i32Range x) := by unfold i32Range; infer_instance

instance (x : Int) : Decidable (i64Range x) := by unfold i64Range; infer_instance

/-- A content value realizable by the Rust structure: byte-vector lengths fit
in `usize`/`u64` and the integers fit their declared widths. -/
def ContentValid (c : TransactionContent) : Prop :=
  c.sender_addr.length < 18446744073709551616 ∧
  c.sender_pubkey.length < 18446744073709551616 ∧
  c.receiver_addr.length < 18446744073709551616 ∧
  i32Range c.amount ∧ i64Range c.timestamp

/-- A signed transaction realizable by the Rust structure. -/
def SignedValid (t : TransactionSigned) : Prop :=
  ContentValid t.content ∧ t.signature.length < 18446744073709551616

/-- A transaction realizable by the Rust structure. -/
def TransactionValid (tx : Transaction) : Prop :=
  tx.id.length < 18446744073709551616 ∧ SignedValid tx.transaction

instance (c : TransactionContent) : Decidable (ContentValid c) := by
  unfold ContentValid; infer_instance

instance (t : TransactionSigned) : Decidable (SignedValid t) := by
  unfold SignedValid; infer_instance

instance (tx : Transaction) : Decidable (TransactionValid tx) := by
  unfold TransactionValid; infer_instance

/-! ## Canonical binary encoding (bincode `serialize(…, Infinite)`)

bincode (0.x, as used by the repository) serializes a struct as its fields in
declaration order; `Vec<u8>` as a little-endian `u64` length prefix followed
by the raw bytes; `i32`/`i64` as fixed-width little-endian two's complement. -/

/-- Little-endian bytes of `n`, exactly `k` bytes (truncating above). -/
def bytesLE : Nat → Nat → List Nat
  | 0, _ => []
  | k + 1, n => n % 256 :: bytesLE k (n / 256)

/-- Recompose a little-endian byte list into a natural number. -/
def natFromBytesLE (bs : List Nat) : Nat := bs.foldr (fun b acc => b + 256 * acc) 0

/-- bincode `u64` encoding (little-endian, 8 bytes). -/
def u64le (n : Nat) : List Nat := bytesLE 8 n

/-- bincode `i32` encoding (little-endian two's complement, 4 bytes). -/
def i32le (x : Int) : List Nat := bytesLE 4 (x % 4294967296).toNat

/-- bincode `i64` encoding (little-endian two's complement, 8 bytes). -/
def i64le (x : Int) : List Nat := bytesLE 8 (x % 18446744073709551616).toNat

/-- bincode `Vec<u8>` encoding: `u64` length prefix, then the bytes. -/
def serBytes (v : List Nat) : List Nat := u64le v.length ++ v

/-- bincode encoding of `TransactionContent` (fields in declaration order). -/
def serContent (c : TransactionContent) : List Nat :=
  serBytes c.sender_addr ++ serBytes c.sender_pubkey ++ serBytes c.receiver_addr ++
  i32le c.amount ++ i64le c.timestamp

/-- bincode encoding of `TransactionSigned`. -/
def serSigned (t : TransactionSigned) : List Nat :=
  serContent t.content ++ serBytes t.signature

/-- bincode encoding of `Transaction`. -/
def serTransaction (tx : Transaction) : List Nat :=
  serBytes tx.id ++ serSigned tx.transaction

/-! ## Binary decoding (bincode `deserialize`)

Each decoding step consumes a prefix of the remaining bytes or fails;
`deserialize` for a struct reads the fields in declaration order. -/

/-- Read exactly `n` bytes from the front, or fail (end of input). -/
def readN (n : Nat) (l : List Nat) : Option (List Nat × List Nat) :=
  if n ≤ l.length then some (l.take n, l.drop n) else none

/-- Sequencing of decoding steps (monadic bind on prefix consumers). -/
def pbind {α β : Type} (p : List Nat → Option (α × List Nat))
    (q : α → List Nat → Option (β × List Nat)) : List Nat → Option (β × List Nat) :=
  fun l =>
    match p l with
    | some (a, l1) => q a l1
    | none => none

/-- Decoding step that consumes nothing and returns `a`. -/
def pok {α : Type} (a : α) : List Nat → Option (α × List Nat) := fun l => some (a, l)

/-- Two's complement reading of a 32-bit word. -/
def decodeI32 (n : Nat) : Int :=
  if n < 2147483648 then (n : Int) else (n : Int) - 4294967296

/-- Two's complement reading of a 64-bit word. -/
def decodeI64 (n : Nat) : Int :=
  if n < 9223372036854775808 then (n : Int) else (n : Int) - 18446744073709551616

/-- Decode a little-endian `u64`. -/
def parseU64 : List Nat → Option (Nat × List Nat) :=
  pbind (readN 8) fun bs => pok (natFromBytesLE bs)

/-- Decode a little-endian `i32`. -/
def parseI32 : List Nat → Option (Int × List Nat) :=
  pbind (readN 4) fun bs => pok (decodeI32 (natFromBytesLE bs))

/-- Decode a little-endian `i64`. -/
def parseI64 : List Nat → Option (Int × List Nat) :=
  pbind (readN 8) fun bs => pok (decodeI64 (natFromBytesLE bs))

/-- Decode a `Vec<u8>`: `u64` length, then that many bytes. -/
def parseBytes : List Nat → Option (List Nat × List Nat) :=
  pbind parseU64 fun n => readN n

/-- bincode decoding of `TransactionContent`. -/
def parseContent : List Nat → Option (TransactionContent × List Nat) :=
  pbind parseBytes fun sa =>
  pbind parseBytes fun spk =>
  pbind parseBytes fun ra =>
  pbind parseI32 fun am =>
  pbind parseI64 fun ts =>
  pok ⟨sa, spk, ra, am, ts⟩

/-- bincode decoding of `TransactionSigned`. -/
def parseSigned : List Nat → Option (TransactionSigned × List Nat) :=
  pbind parseContent fun content =>
  pbind parseBytes fun signature =>
  pok ⟨content, signature⟩

/-- bincode decoding of `Transaction`. -/
def parseTransaction : List Nat → Option (Transaction × List Nat) :=
  pbind parseBytes fun id =>
  pbind parseSigned fun t =>
  pok ⟨id, t⟩

/-- The error kinds of the core.

Modelled from the spec: the repository's `errors.rs` (`CoreError`) is not
among the sources; §7 of the specification lists these kinds, and the `From`
conversions applied by the `?` operator are taken as: bincode decode failures
map to `MalformedEncoding`, hex/base58 text failures to `EncodingError`,
key/signature/message parse failures to `CryptoFormatError`, signing failures
to `SigningError`, storage failures to `StorageError`. -/
inductive CoreError where
  | MalformedEncoding
  | EncodingError
  | CryptoFormatError
  | SigningError
  | StorageError
deriving DecidableEq

/-- Rust `Transaction::from_bytes`: bincode-deserialize a `Transaction`;
trailing bytes after a complete value are ignored by `deserialize`. -/
def Transaction.from_bytes (data : List Nat) : Except CoreError Transaction :=
  match parseTransaction data with
  | some (tx, _) => .ok tx
  | none => .error .MalformedEncoding

/-! ## Signer/Verifier (secp256k1 Schnorr, abstracted)

The secp256k1 elliptic-curve primitives live in the external `secp256k1`
crate, not in this repository; they are abstracted as the fields of a
`SchnorrModel`.  What the repository itself does with them — which bytes get
hashed, which calls are fallible (`?`) and which are not — is modelled
exactly.  In particular `schnorr::Signature` is a fixed 64-byte array and
`schnorr::Signature::deserialize` returns a `Signature` directly (no
`Result`): it asserts that its input is exactly 64 bytes and panics
otherwise, so for signature bytes of any other length `Transaction::verify`
crashes instead of returning; the panic is modelled as the distinct `none`
outcome of `verify`. -/

/-- Abstract model of the external secp256k1 Schnorr primitives:
`signSchnorr digest privkey` (`Secp256k1::sign_schnorr` followed by
`Signature::serialize`, `none` for a signing failure), `verifySchnorr digest
sigBytes pubkey` (`Secp256k1::verify_schnorr` on the 64-byte signature
rebuilt by `schnorr::Signature::deserialize`), and `parsePubkey`
(`PublicKey::from_slice`, `none` when the bytes are not a valid public-key
encoding).  `sign_len` records the invariant enforced by the crate's types:
a serialized `schnorr::Signature` (a 64-byte array newtype) is always
exactly 64 bytes long. -/
structure SchnorrModel where
  signSchnorr : List Nat → List Nat → Option (List Nat)
  verifySchnorr : List Nat → List Nat → List Nat → Bool
  parsePubkey : List Nat → Option (List Nat)
  sign_len : ∀ d sk s, signSchnorr d sk = some s → s.length = 64

/-- `secp256k1::Message::from_slice`: accepts exactly 32 bytes. -/
def messageFromSlice (digest : List Nat) : Except CoreError (List Nat) :=
  if digest.length = 32 then .ok digest else .error .CryptoFormatError

/-- Rust `TransactionContent::get_signature`: bincode-serialize the content,
SHA-256 it, build the message, and Schnorr-sign it with the private key. -/
def TransactionContent.get_signature (C : SchnorrModel) (c : TransactionContent)
    (private_key : List Nat) : Except CoreError (List Nat) :=
  match messageFromSlice (sha256 (serContent c)) with
  | .error e => .error e
  | .ok input =>
      match C.signSchnorr input private_key with
      | some s => .ok s
      | none => .error .SigningError

/-- Rust `TransactionSigned::get_id`: SHA-256 of the bincode encoding of the
signed transaction.  (In Rust this returns `Result`, but with the `Infinite`
size limit and a `Vec` writer the serialization step cannot fail.) -/
def TransactionSigned.get_id (t : TransactionSigned) : List Nat :=
  sha256 (serSigned t)

/-- Rust `Transaction::verify`: re-derive the digest from the bincode
encoding of the stored content, rebuild the stored signature bytes with
`schnorr::Signature::deserialize` — which asserts a 64-byte length and
panics on any other length, modelled as the `none` outcome — then parse the
stored sender public key (fallible, `?`) and check the Schnorr signature,
mapping the check's outcome to a `Bool`. -/
def Transaction.verify (C : SchnorrModel) (tx : Transaction) :
    Option (Except CoreError Bool) :=
  match messageFromSlice (sha256 (serContent tx.transaction.content)) with
  | .error e => some (.error e)
  | .ok input =>
      if tx.transaction.signature.length = 64 then
        match C.parsePubkey tx.transaction.content.sender_pubkey with
        | none => some (.error .CryptoFormatError)
        | some public_key =>
            some (.ok (C.verifySchnorr input tx.transaction.signature public_key))
      else none

/-- Rust `transactions::new` (the spec's `Create`): assemble the content,
sign it, and derive the id from the signed wrapper.  The Rust function reads
the timestamp from `utils::get_current_timestamp` (the clock); the clock
value is passed here as the explicit argument `timestamp`. -/
def new (C : SchnorrModel) (sender_privkey sender_pubkey sender_addr receiver_addr : List Nat)
    (amount timestamp : Int) : Except CoreError Transaction :=
  let tx_content : TransactionContent :=
    ⟨sender_addr, sender_pubkey, receiver_addr, amount, timestamp⟩
  match tx_content.get_signature C sender_privkey with
  | .error e => .error e
  | .ok signature =>
      let tx_signed : TransactionSigned := ⟨tx_content, signature⟩
      .ok ⟨tx_signed.get_id, tx_signed⟩

/-! ## Text codecs (hex via the `hex` crate, base58 via the `base58` crate) -/

/-- Lowercase hexadecimal digit character for a value below 16. -/
def hexDigitChar (n : Nat) : Char :=
  if n < 10 then Char.ofNat (48 + n) else Char.ofNat (87 + n)

/-- `hex::ToHex`: two lowercase hex digits per byte. -/
def toHex (b : List Nat) : List Char :=
  b.foldr (fun x acc => hexDigitChar (x / 16) :: hexDigitChar (x % 16) :: acc) []

/-- Value of one hex digit character (accepting both cases), else `none`. -/
def fromHexDigit (c : Char) : Option Nat :=
  if 48 ≤ c.toNat ∧ c.toNat ≤ 57 then some (c.toNat - 48)
  else if 97 ≤ c.toNat ∧ c.toNat ≤ 102 then some (c.toNat - 87)
  else if 65 ≤ c.toNat ∧ c.toNat ≤ 70 then some (c.toNat - 55)
  else none

/-- `hex::FromHex`: the digits pairwise; fails on an odd-length string or on
a character that is not a hex digit. -/
def fromHex : List Char → Option (List Nat)
  | [] => some []
  | c1 :: c2 :: rest =>
      match fromHexDigit c1, fromHexDigit c2, fromHex rest with
      | some h, some lo, some r => some ((h * 16 + lo) :: r)
      | _, _, _ => none
  | [_] => none

/-- The Bitcoin base58 alphabet used by the `base58` crate. -/
def b58Alphabet : List Char :=
  ['1','2','3','4','5','6','7','8','9',
   'A','B','C','D','E','F','G','H','J','K','L','M','N','P','Q','R','S','T','U','V','W','X','Y','Z',
   'a','b','c','d','e','f','g','h','i','j','k','m','n','o','p','q','r','s','t','u','v','w','x','y','z']

/-- Count of leading zero bytes. -/
def leadingZeros : List Nat → Nat
  | [] => 0
  | b :: bs => if b = 0 then leadingZeros bs + 1 else 0

/-- Count of leading `'1'` characters. -/
def leadingOnes : List Char → Nat
  | [] => 0
  | c :: cs => if c = '1' then leadingOnes cs + 1 else 0

/-- Base-58 digits of `n`, most significant first (empty for zero); the
first argument is structural fuel, `n` itself suffices. -/
def natToDigits58Aux : Nat → Nat → List Nat
  | 0, _ => []
  | fuel + 1, n => if n = 0 then [] else natToDigits58Aux fuel (n / 58) ++ [n % 58]

/-- Base-58 digits of `n`, most significant first. -/
def natToDigits58 (n : Nat) : List Nat := natToDigits58Aux n n

/-- Big-endian bytes of `n` without leading zeros (fuel as above). -/
def natToBytesBEAux : Nat → Nat → List Nat
  | 0, _ => []
  | fuel + 1, n => if n = 0 then [] else natToBytesBEAux fuel (n / 256) ++ [n % 256]

/-- Big-endian bytes of `n` without leading zeros. -/
def natToBytesBE (n : Nat) : List Nat := natToBytesBEAux n n

/-- Big-endian value of a byte list. -/
def natFromBytesBE (b : List Nat) : Nat := b.foldl (fun acc x => acc * 256 + x) 0

/-- `base58::ToBase58`: leading zero bytes become `'1'`s, the rest is the
big-endian value written in base 58. -/
def toBase58 (b : List Nat) : List Char :=
  List.replicate (leadingZeros b) '1' ++
  (natToDigits58 (natFromBytesBE b)).map (fun d => b58Alphabet.getD d '1')

/-- Index of a character in the base58 alphabet. -/
def b58Index (c : Char) : Option Nat := b58Alphabet.findIdx? (· == c)

/-- `base58::FromBase58`: fails on a character outside the alphabet; leading
`'1'`s become leading zero bytes. -/
def fromBase58 (s : List Char) : Option (List Nat) :=
  match s.foldlM (fun acc c => (b58Index c).map (fun i => acc * 58 + i)) 0 with
  | some val => some (List.replicate (leadingOnes s) 0 ++ natToBytesBE val)
  | none => none

/-- Rust `transactions::from` (the spec's `FromFields`): text-decode each
byte field — hex for id, sender public key and signature, base58 for the two
addresses — and rebuild the nested structure.  Any decoding failure is
surfaced through `?` (spec §7: `EncodingError`). -/
def fromFields (id sender_addr sender_pubkey receiver_addr : List Char)
    (amount timestamp : Int) (signature : List Char) : Except CoreError Transaction :=
  match fromHex id, fromBase58 sender_addr, fromHex sender_pubkey,
        fromBase58 receiver_addr, fromHex signature with
  | some i, some sa, some spk, some ra, some sg =>
      .ok ⟨i, ⟨⟨sa, spk, ra, amount, timestamp⟩, sg⟩⟩
  | _, _, _, _, _ => .error .EncodingError

/-! ## Pending store (`store_db` / `read_db` over SQLite)

The SQLite table is modelled as a list of rows; `Connection::open` and SQL
execution are modelled as pure state passing (an `INSERT` appends a row, the
`SELECT` reads every row in order). -/

/-- One row of the `transactions` table: text columns for the byte fields,
integer columns for amount and timestamp. -/
structure TxRow where
  id : List Char
  sender_addr : List Char
  sender_pubkey : List Char
  receiver_addr : List Char
  amount : Int
  timestamp : Int
  signature : List Char
deriving DecidableEq

/-- The row written by `Transaction::store_db`: id, public key and signature
hex-encoded, the two addresses base58-encoded, integers stored directly. -/
def rowOfTx (tx : Transaction) : TxRow :=
  ⟨toHex tx.id,
   toBase58 tx.transaction.content.sender_addr,
   toHex tx.transaction.content.sender_pubkey,
   toBase58 tx.transaction.content.receiver_addr,
   tx.transaction.content.amount,
   tx.transaction.content.timestamp,
   toHex tx.transaction.signature⟩

/-- Rust `Transaction::store_db`: INSERT one row built from the text
projections of the transaction's fields. -/
def Transaction.store_db (tx : Transaction) (db : List TxRow) : List TxRow :=
  db ++ [rowOfTx tx]

/-- `String::into_bytes`: the UTF-8 bytes of the text (all characters
produced by the hex/base58 encoders are ASCII, one byte per character). -/
def strBytes (s : List Char) : List Nat := s.map Char.toNat

/-- The transaction rebuilt by `read_db`'s row mapper: each text column is
turned into bytes with `String::into_bytes` — the raw UTF-8 bytes of the
hex/base58 text, with no hex or base58 decoding applied. -/
def txOfRow (r : TxRow) : Transaction :=
  ⟨strBytes r.id,
   ⟨⟨strBytes r.sender_addr, strBytes r.sender_pubkey, strBytes r.receiver_addr,
     r.amount, r.timestamp⟩,
    strBytes r.signature⟩⟩

/-- Rust `transactions::read_db`: SELECT every row and rebuild a
`Transaction` from each via the row mapper above. -/
def read_db (db : List TxRow) : List Transaction := db.map txOfRow

/-! ## Decoder metatheory: round trips and prefix behaviour -/

/-- A decoding step is stable when its success is determined by the consumed
prefix and the unconsumed remainder is passed through unchanged. -/
def ParseStable {α : Type} (p : List Nat → Option (α × List Nat)) : Prop :=
  ∀ l a r, p l = some (a, r) → ∃ c, l = c ++ r ∧ ∀ r2, p (c ++ r2) = some (a, r2)

theorem length_bytesLE (k n : Nat) : (bytesLE k n).length = k := by
  induction k generalizing n with
  | zero => rfl
  | succ k ih => simp [bytesLE, ih]

theorem natFromBytesLE_bytesLE (k n : Nat) (h : n < 256 ^ k) :
    natFromBytesLE (bytesLE k n) = n := by
  induction k generalizing n with
  | zero =>
      simp only [pow_zero, Nat.lt_one_iff] at h
      simp [h, bytesLE, natFromBytesLE]
  | succ k ih =>
      have h2 : n / 256 < 256 ^ k := by
        rw [Nat.div_lt_iff_lt_mul (by norm_num)]
        calc n < 256 ^ (k + 1) := h
          _ = 256 ^ k * 256 := by ring
      show n % 256 + 256 * natFromBytesLE (bytesLE k (n / 256)) = n
      rw [ih _ h2]
      omega

theorem readN_exact {bs : List Nat} {n : Nat} (h : bs.length = n) (r : List Nat) :
    readN n (bs ++ r) = some (bs, r) := by
  subst h
  unfold readN
  rw [if_pos (by simp)]
  rw [List.take_left, List.drop_left]

theorem readN_stable (n : Nat) : ParseStable (readN n) := by
  intro l a r h
  unfold readN at h
  split at h
  case isTrue hle =>
    simp only [Option.some.injEq, Prod.mk.injEq] at h
    obtain ⟨ha, hr⟩ := h
    refine ⟨a, ?_, fun r2 => ?_⟩
    · rw [← ha, ← hr]; exact (List.take_append_drop n l).symm
    · have hlen : a.length = n := by
        rw [← ha, List.length_take]; omega
      exact readN_exact hlen r2
  case isFalse => cases h

theorem pbind_stable {α β : Type} {p : List Nat → Option (α × List Nat)}
    {q : α → List Nat → Option (β × List Nat)}
    (hp : ParseStable p) (hq : ∀ a, ParseStable (q a)) : ParseStable (pbind p q) := by
  intro l b r h
  unfold pbind at h
  cases hpl : p l with
  | none => rw [hpl] at h; cases h
  | some al =>
      obtain ⟨a, l1⟩ := al
      rw [hpl] at h
      obtain ⟨c1, e1, f1⟩ := hp l a l1 hpl
      obtain ⟨c2, e2, f2⟩ := hq a l1 b r h
      refine ⟨c1 ++ c2, ?_, fun r2 => ?_⟩
      · rw [e1, e2, List.append_assoc]
      · unfold pbind
        rw [List.append_assoc, f1 (c2 ++ r2)]
        exact f2 r2

theorem pok_stable {α : Type} (a : α) : ParseStable (pok a) := by
  intro l b r h
  simp only [pok, Option.some.injEq, Prod.mk.injEq] at h
  exact ⟨[], by simp [h.2], fun r2 => by simp [pok, h.1]⟩

theorem parseU64_stable : ParseStable parseU64 :=
  pbind_stable (readN_stable 8) fun bs => pok_stable (natFromBytesLE bs)

theorem parseI32_stable : ParseStable parseI32 :=
  pbind_stable (readN_stable 4) fun bs => pok_stable (decodeI32 (natFromBytesLE bs))

theorem parseI64_stable : ParseStable parseI64 :=
  pbind_stable (readN_stable 8) fun bs => pok_stable (decodeI64 (natFromBytesLE bs))

theorem parseBytes_stable : ParseStable parseBytes :=
  pbind_stable parseU64_stable fun n => readN_stable n

theorem parseContent_stable : ParseStable parseContent :=
  pbind_stable parseBytes_stable fun _ =>
  pbind_stable parseBytes_stable fun _ =>
  pbind_stable parseBytes_stable fun _ =>
  pbind_stable parseI32_stable fun _ =>
  pbind_stable parseI64_stable fun _ => pok_stable _

theorem parseSigned_stable : ParseStable parseSigned :=
  pbind_stable parseContent_stable fun _ =>
  pbind_stable parseBytes_stable fun _ => pok_stable _

theorem parseTransaction_stable : ParseStable parseTransaction :=
  pbind_stable parseBytes_stable fun _ =>
  pbind_stable parseSigned_stable fun _ => pok_stable _

theorem pbind_eval {α β : Type} {p : List Nat → Option (α × List Nat)}
    {q : α → List Nat → Option (β × List Nat)} {l : List Nat} {a : α} {l1 : List Nat}
    (hp : p l = some (a, l1)) : pbind p q l = q a l1 := by
  unfold pbind; rw [hp]

theorem parseU64_ser (n : Nat) (h : n < 18446744073709551616) (r : List Nat) :
    parseU64 (u64le n ++ r) = some (n, r) := by
  unfold parseU64 u64le
  rw [pbind_eval (readN_exact (length_bytesLE 8 n) r)]
  show some (natFromBytesLE (bytesLE 8 n), r) = some (n, r)
  rw [natFromBytesLE_bytesLE 8 n (by norm_num; omega)]

theorem parseI32_ser (x : Int) (h : i32Range x) (r : List Nat) :
    parseI32 (i32le x ++ r) = some (x, r) := by
  obtain ⟨h1, h2⟩ := h
  unfold parseI32 i32le
  rw [pbind_eval (readN_exact (length_bytesLE 4 _) r)]
  show some (decodeI32 (natFromBytesLE (bytesLE 4 (x % 4294967296).toNat)), r) = some (x, r)
  rw [natFromBytesLE_bytesLE 4 _ (by norm_num; omega)]
  have hd : decodeI32 (x % 4294967296).toNat = x := by
    unfold decodeI32; split <;> omega
  rw [hd]

theorem parseI64_ser (x : Int) (h : i64Range x) (r : List Nat) :
    parseI64 (i64le x ++ r) = some (x, r) := by
  obtain ⟨h1, h2⟩ := h
  unfold parseI64 i64le
  rw [pbind_eval (readN_exact (length_bytesLE 8 _) r)]
  show some (decodeI64 (natFromBytesLE (bytesLE 8 (x % 18446744073709551616).toNat)), r) = some (x, r)
  rw [natFromBytesLE_bytesLE 8 _ (by norm_num; omega)]
  have hd : decodeI64 (x % 18446744073709551616).toNat = x := by
    unfold decodeI64; split <;> omega
  rw [hd]

theorem parseBytes_ser (v : List Nat) (h : v.length < 18446744073709551616) (r : List Nat) :
    parseBytes (serBytes v ++ r) = some (v, r) := by
  unfold parseBytes serBytes
  rw [List.append_assoc, pbind_eval (parseU64_ser v.length h (v ++ r))]
  exact readN_exact rfl r

theorem parseContent_ser (c : TransactionContent) (h : ContentValid c) (r : List Nat) :
    parseContent (serContent c ++ r) = some (c, r) := by
  obtain ⟨sa, spk, ra, am, ts⟩ := c
  obtain ⟨h1, h2, h3, h4, h5⟩ := h
  simp only [serContent, List.append_assoc, parseContent, pbind, pok,
    parseBytes_ser sa h1, parseBytes_ser spk h2, parseBytes_ser ra h3,
    parseI32_ser am h4, parseI64_ser ts h5]

theorem parseSigned_ser (t : TransactionSigned) (h : SignedValid t) (r : List Nat) :
    parseSigned (serSigned t ++ r) = some (t, r) := by
  obtain ⟨content, signature⟩ := t
  obtain ⟨h1, h2⟩ := h
  simp only [serSigned, List.append_assoc, parseSigned, pbind, pok,
    parseContent_ser content h1, parseBytes_ser signature h2]

theorem parseTransaction_ser (tx : Transaction) (h : TransactionValid tx) (r : List Nat) :
    parseTransaction (serTransaction tx ++ r) = some (tx, r) := by
  obtain ⟨id, t⟩ := tx
  obtain ⟨h1, h2⟩ := h
  simp only [serTransaction, List.append_assoc, parseTransaction, pbind, pok,
    parseBytes_ser id h1, parseSigned_ser t h2]

/-- A stable decoder that consumes a whole input fails on any proper front
part of that input. -/
theorem parse_none_of_proper_front {α : Type} {p : List Nat → Option (α × List Nat)}
    (hs : ParseStable p) {e : List Nat} {v : α} (hfull : p e = some (v, []))
    {x s : List Nat} (hsplit : e = x ++ s) (hne : s ≠ []) : p x = none := by
  cases hpx : p x with
  | none => rfl
  | some ar =>
      obtain ⟨v', r'⟩ := ar
      obtain ⟨c, ec, f⟩ := hs x v' r' hpx
      have he : p e = some (v', r' ++ s) := by
        rw [hsplit, ec, List.append_assoc]; exact f (r' ++ s)
      rw [hfull] at he
      simp only [Option.some.injEq, Prod.mk.injEq] at he
      exact absurd (List.append_eq_nil.mp he.2.symm).2 hne

/-- `messageFromSlice` never fails on a SHA-256 digest. -/
theorem messageFromSlice_sha256 (m : List Nat) :
    messageFromSlice (sha256 m) = .ok (sha256 m) := by
  unfold messageFromSlice
  rw [if_pos (sha256_length m)]

/-- `get_signature` characterized: the digest handed to the Schnorr signer is
the SHA-256 of the bincode encoding of the content. -/
theorem get_signature_eq (C : SchnorrModel) (c : TransactionContent) (sk : List Nat) :
    TransactionContent.get_signature C c sk =
      match C.signSchnorr (sha256 (serContent c)) sk with
      | some s => .ok s
      | none => .error .SigningError := by
  unfold TransactionContent.get_signature
  rw [messageFromSlice_sha256]

/-- `new` characterized in terms of `get_signature` and `get_id`. -/
theorem new_eq (C : SchnorrModel) (sk pk sa ra : List Nat) (am ts : Int) :
    new C sk pk sa ra am ts =
      match TransactionContent.get_signature C ⟨sa, pk, ra, am, ts⟩ sk with
      | .error e => .error e
      | .ok s => .ok ⟨TransactionSigned.get_id ⟨⟨sa, pk, ra, am, ts⟩, s⟩,
          ⟨⟨sa, pk, ra, am, ts⟩, s⟩⟩ := rfl

/-! ## Concrete model instances and inputs used to evaluate the theorems -/

/-- A degenerate Schnorr model: signing always returns a 64-byte zero
signature, verification accepts everything, every byte string parses as a
public key.  Used only to evaluate theorems on explicit inputs. -/
def schnorrAlways : SchnorrModel where
  signSchnorr := fun _ _ => some (List.replicate 64 0)
  verifySchnorr := fun _ _ _ => true
  parsePubkey := fun pk => some pk
  sign_len := by
    intro d sk s h
    injection h with h2
    rw [← h2]
    simp

/-- The 64-byte signature of the toy scheme below: the key followed by the
digest, zero-padded (and truncated) to exactly 64 bytes. -/
def toySig (k d : List Nat) : List Nat :=
  (k ++ d).take 64 ++ List.replicate (64 - (k ++ d).length) 0

theorem toySig_length (k d : List Nat) : (toySig k d).length = 64 := by
  simp [toySig]
  omega

/-- A deterministic toy Schnorr model in which the public key equals the
private key: the signature over `d` by `sk` is `toySig sk d`, and
verification compares the signature against the one the stored public key
would produce.  Signing always succeeds (every private key is structurally
valid), and a signature verifies under a public key iff that key matches the
signing key. -/
def schnorrToy : SchnorrModel where
  signSchnorr := fun d sk => some (toySig sk d)
  verifySchnorr := fun d s pk => s == toySig pk d
  parsePubkey := fun pk => some pk
  sign_len := by
    intro d sk s h
    injection h with h2
    rw [← h2]
    exact toySig_length sk d

/-- Create-then-verify composition, used to evaluate `new` followed by
`Transaction::verify` on explicit inputs (outer `none` models the panic). -/
def verifyAfterCreate (C : SchnorrModel) (sk pk sa ra : List Nat) (am ts : Int) :
    Option (Except CoreError Bool) :=
  match new C sk pk sa ra am ts with
  | .error e => some (.error e)
  | .ok tx => tx.verify C

/-- The transaction produced by `new` under `schnorrAlways` on the sample
input, used as the concrete witness input. -/
def txCreatedW : Transaction :=
  (new schnorrAlways [1] [2] [3] [4] 5 6).toOption.getD ⟨[], ⟨⟨[], [], [], 0, 0⟩, []⟩⟩

/-- The transaction produced by `new` under `schnorrToy` with matching
private and public key, used as the concrete witness input. -/
def txMatchW : Transaction :=
  (new schnorrToy [1] [1] [3] [4] 5 6).toOption.getD ⟨[], ⟨⟨[], [], [], 0, 0⟩, []⟩⟩

/-- A sample transaction with a 32-byte id, inserted into the store model. -/
def txStored : Transaction := ⟨List.replicate 32 0, ⟨⟨[0], [1], [2], 3, 4⟩, [5]⟩⟩

/-! ## The claims -/

/-- C1: the claim expects `store_db` then `read_db` to yield a transaction
equal to the stored one (after text-decoding every column).  The code's read
path instead takes the raw UTF-8 bytes of the text columns
(`String::into_bytes`) without hex/base58 decoding, so the single listed
record differs from the stored transaction: its id is the 64 ASCII bytes of
the hex string, not the original 32 id bytes. -/
theorem store_read_db_corrupts :
    read_db (Transaction.store_db txStored []) = [txOfRow (rowOfTx txStored)] ∧
    txOfRow (rowOfTx txStored) ≠ txStored ∧
    (txOfRow (rowOfTx txStored)).id.length = 64 ∧
    txStored.id.length = 32 ∧
    (txOfRow (rowOfTx txStored)).id ≠ txStored.id :=
  ⟨rfl, by decide, by decide, by decide, by decide⟩

/-- Helper characterization of `verify`: the digest step never fails (a
SHA-256 digest is always 32 bytes), so the outcome is the panic (`none`) for
signature bytes that are not 64 bytes long, the `CryptoFormatError` exactly
when the public key bytes cannot be parsed, and otherwise the Schnorr check
of the stored signature over the content digest. -/
theorem verify_eq (C : SchnorrModel) (tx : Transaction) :
    Transaction.verify C tx =
      if tx.transaction.signature.length = 64 then
        match C.parsePubkey tx.transaction.content.sender_pubkey with
        | none => some (.error CoreError.CryptoFormatError)
        | some pk => some (.ok (C.verifySchnorr (sha256 (serContent tx.transaction.content))
            tx.transaction.signature pk))
      else none := by
  unfold Transaction.verify
  rw [messageFromSlice_sha256]

/-- C2: the claim says `verify` fails with a `CryptoFormatError` — and never
panics — when the signature bytes cannot be parsed into their structural
type.  That matches the spec's intent (§4.2, §7: a bad input must not crash
the caller), but the code is wrong there: `schnorr::Signature::deserialize`
(a fixed 64-byte array newtype) asserts the 64-byte length and panics on any
other length, and no `?` guards it, so on a transaction with a 3-byte
signature `verify` reaches the panic (the model's `none` outcome) under
every Schnorr model, instead of returning an error.  Only the public key
parse returns `CryptoFormatError`. -/
theorem verify_malformed_sig_panics (C : SchnorrModel) :
    Transaction.verify C ⟨[], ⟨⟨[], [2], [], 0, 0⟩, [1, 2, 3]⟩⟩ = none ∧
    (⟨[], ⟨⟨[], [2], [], 0, 0⟩, [1, 2, 3]⟩⟩ : Transaction).transaction.signature.length ≠ 64 := by
  refine ⟨?_, by decide⟩
  rw [verify_eq]
  rfl

/-- C3 (as stated) is false: `new` stores whatever sender public key the
caller passes, without relating it to the private key.  Under the toy model
(where a key pair matches iff the bytes agree, and signing always succeeds,
so every private key is structurally valid), creating with private key `[1]`
but stored public key `[2]` yields a transaction on which `verify` returns
`Ok(false)`; the same call with matching public key `[1]` yields `Ok(true)`. -/
theorem create_verify_cex :
    verifyAfterCreate schnorrToy [1] [2] [3] [4] 5 6 = some (.ok false) ∧
    verifyAfterCreate schnorrToy [1] [1] [3] [4] 5 6 = some (.ok true) :=
  ⟨rfl, rfl⟩

/-- C3 (amended): if the private key signs successfully and the stored sender
public key parses to a key under which this private key's signatures verify,
then the transaction returned by `new` satisfies `verify = Ok(true)`, for any
sender address, receiver address, amount and timestamp. -/
theorem create_yields_verify_true (C : SchnorrModel) (sk pk sa ra : List Nat)
    (am ts : Int) (pkP : List Nat)
    (hpk : C.parsePubkey pk = some pkP)
    (hmatch : ∀ d s, C.signSchnorr d sk = some s → C.verifySchnorr d s pkP = true)
    (tx : Transaction) (hnew : new C sk pk sa ra am ts = .ok tx) :
    tx.verify C = some (.ok true) := by
  rw [new_eq, get_signature_eq] at hnew
  cases hss : C.signSchnorr (sha256 (serContent ⟨sa, pk, ra, am, ts⟩)) sk with
  | none => rw [hss] at hnew; cases hnew
  | some s =>
      rw [hss] at hnew
      simp only [Except.ok.injEq] at hnew
      subst hnew
      rw [verify_eq]
      show (if s.length = 64 then
              match C.parsePubkey pk with
              | none => some (Except.error CoreError.CryptoFormatError)
              | some pkv => some (Except.ok (C.verifySchnorr
                  (sha256 (serContent ⟨sa, pk, ra, am, ts⟩)) s pkv))
            else none) = some (.ok true)
      rw [if_pos (C.sign_len _ sk s hss), hpk]
      show some (Except.ok (C.verifySchnorr (sha256 (serContent ⟨sa, pk, ra, am, ts⟩)) s pkP)) =
        some (Except.ok true)
      rw [hmatch _ s hss]

/-- C3 witness: the amended theorem evaluated on the toy model with matching
keys. -/
theorem create_yields_verify_true_witness :
    Transaction.verify schnorrToy txMatchW = some (.ok true) :=
  create_yields_verify_true schnorrToy [1] [1] [3] [4] 5 6 [1] rfl
    (fun d s h => by
      injection h with h2
      rw [← h2]
      simp [schnorrToy])
    txMatchW rfl

/-- C4: every transaction returned by `new` has `id` equal to the SHA-256
hash of the bincode encoding of its signed wrapper (content together with
signature). -/
theorem create_id_is_hash_of_signed (C : SchnorrModel)
    (sk pk sa ra : List Nat) (am ts : Int) (tx : Transaction)
    (hnew : new C sk pk sa ra am ts = .ok tx) :
    tx.id = sha256 (serSigned tx.transaction) := by
  rw [new_eq] at hnew
  cases hsig : TransactionContent.get_signature C ⟨sa, pk, ra, am, ts⟩ sk with
  | error e => rw [hsig] at hnew; cases hnew
  | ok s =>
      rw [hsig] at hnew
      simp only [Except.ok.injEq] at hnew
      subst hnew
      rfl

/-- C4 witness: the theorem evaluated on the degenerate model. -/
theorem create_id_is_hash_of_signed_witness :
    txCreatedW.id = sha256 (serSigned txCreatedW.transaction) :=
  create_id_is_hash_of_signed schnorrAlways [1] [2] [3] [4] 5 6 txCreatedW rfl

/-- C5: the signature produced at signing time is the Schnorr signature over
the SHA-256 digest of the bincode encoding of the content alone; the encoding
of the signed wrapper is a strictly different byte string, so the signed
digest is not the digest of any structure containing the signature. -/
theorem signature_over_content_only (C : SchnorrModel) (c : TransactionContent)
    (sk s : List Nat) (h : c.get_signature C sk = .ok s) :
    C.signSchnorr (sha256 (serContent c)) sk = some s ∧
    serSigned ⟨c, s⟩ ≠ serContent c := by
  constructor
  · rw [get_signature_eq] at h
    cases hss : C.signSchnorr (sha256 (serContent c)) sk with
    | none => rw [hss] at h; cases h
    | some s0 => rw [hss] at h; simp only [Except.ok.injEq] at h; rw [h]
  · intro he
    have hlen := congrArg List.length he
    simp only [serSigned, serBytes, u64le, List.length_append, length_bytesLE] at hlen
    omega

/-- C5 witness: the theorem evaluated on the degenerate model. -/
theorem signature_over_content_only_witness :
    schnorrAlways.signSchnorr (sha256 (serContent ⟨[1], [2], [3], 4, 5⟩)) [9] =
      some (List.replicate 64 0) ∧
    serSigned ⟨⟨[1], [2], [3], 4, 5⟩, List.replicate 64 0⟩ ≠ serContent ⟨[1], [2], [3], 4, 5⟩ :=
  signature_over_content_only schnorrAlways ⟨[1], [2], [3], 4, 5⟩ [9] (List.replicate 64 0) rfl

/-- C6 (as stated) is false: an id field of valid hex text that decodes to
2 bytes — not the 32 bytes of a SHA-256 id — is accepted by `from`, which
performs no length check on any decoded field. -/
theorem fromFields_wrong_length_id_accepted :
    fromFields ['a', 'b', 'c', 'd'] ['1'] ['0', '2'] ['1'] 5 6 ['0', '3'] =
      .ok ⟨[171, 205], ⟨⟨[0], [2], [0], 5, 6⟩, [3]⟩⟩ ∧
    ([171, 205] : List Nat).length ≠ 32 :=
  ⟨rfl, by decide⟩

/-- C6 (amended): `from` text-decodes every byte field with its designated
codec (hex for id, sender public key and signature; base58 for the two
addresses) and fails with `EncodingError` exactly when some field is not
valid hex/base58 text (bad character, or odd hex length); decoded lengths
are not checked. -/
theorem fromFields_spec (idT saT spkT raT : List Char) (am ts : Int) (sgT : List Char) :
    (∀ i sa spk ra sg,
      fromHex idT = some i → fromBase58 saT = some sa → fromHex spkT = some spk →
      fromBase58 raT = some ra → fromHex sgT = some sg →
      fromFields idT saT spkT raT am ts sgT = .ok ⟨i, ⟨⟨sa, spk, ra, am, ts⟩, sg⟩⟩) ∧
    ((fromHex idT = none ∨ fromBase58 saT = none ∨ fromHex spkT = none ∨
      fromBase58 raT = none ∨ fromHex sgT = none) →
      fromFields idT saT spkT raT am ts sgT = .error CoreError.EncodingError) := by
  constructor
  · intro i sa spk ra sg h1 h2 h3 h4 h5
    unfold fromFields
    rw [h1, h2, h3, h4, h5]
  · intro h
    unfold fromFields
    cases hx1 : fromHex idT <;> cases hx2 : fromBase58 saT <;> cases hx3 : fromHex spkT <;>
      cases hx4 : fromBase58 raT <;> cases hx5 : fromHex sgT <;> simp_all

/-- C6 witness: the amended theorem's success branch evaluated on concrete
text fields. -/
theorem fromFields_spec_witness :
    fromFields ['0', '1'] ['1'] ['0', '2'] ['1'] 3 4 ['0', '5'] =
      .ok ⟨[1], ⟨⟨[0], [2], [0], 3, 4⟩, [5]⟩⟩ :=
  (fromFields_spec ['0', '1'] ['1'] ['0', '2'] ['1'] 3 4 ['0', '5']).1
    [1] [0] [2] [0] [5] rfl rfl rfl rfl rfl

/-- C7 (as stated) is false: in the outer `Transaction` encoding the id is a
length-prefixed byte vector like every other `Vec<u8>` field, not a bare
32-byte field; on a transaction with a 32-byte id the encoding differs from
the claimed `id ++ Encode(SignedTransaction)` layout. -/
theorem tx_id_not_bare_cex :
    serTransaction ⟨List.replicate 32 7, ⟨⟨[1], [2], [3], 4, 5⟩, [6]⟩⟩ ≠
      (⟨List.replicate 32 7, ⟨⟨[1], [2], [3], 4, 5⟩, [6]⟩⟩ : Transaction).id ++
        serSigned (⟨List.replicate 32 7, ⟨⟨[1], [2], [3], 4, 5⟩, [6]⟩⟩ : Transaction).transaction := by
  decide

/-- C7 (amended): the canonical encoding is the content fields in the fixed
order sender_address, sender_public_key, receiver_address, amount, timestamp
— each byte vector length-prefixed (8-byte little-endian length), amount in
exactly 4 bytes and timestamp in exactly 8 bytes (little-endian two's
complement) — followed by the length-prefixed signature, with the
length-prefixed (not bare) id preceding the signed wrapper. -/
theorem tx_encoding_layout (tx : Transaction) :
    serTransaction tx =
      u64le tx.id.length ++ tx.id ++
      (u64le tx.transaction.content.sender_addr.length ++ tx.transaction.content.sender_addr ++
       u64le tx.transaction.content.sender_pubkey.length ++ tx.transaction.content.sender_pubkey ++
       u64le tx.transaction.content.receiver_addr.length ++ tx.transaction.content.receiver_addr ++
       i32le tx.transaction.content.amount ++ i64le tx.transaction.content.timestamp) ++
      u64le tx.transaction.signature.length ++ tx.transaction.signature ∧
    (i32le tx.transaction.content.amount).length = 4 ∧
    (i64le tx.transaction.content.timestamp).length = 8 ∧
    (u64le tx.id.length).length = 8 := by
  refine ⟨?_, length_bytesLE 4 _, length_bytesLE 8 _, length_bytesLE 8 _⟩
  simp [serTransaction, serSigned, serContent, serBytes, List.append_assoc]

/-- C8: decoding the canonical encoding yields the value back, for content,
signed wrapper and outer transaction (through `from_bytes` as well). -/
theorem decode_encode_roundtrip (c : TransactionContent) (s : TransactionSigned)
    (t : Transaction) (hc : ContentValid c) (hs : SignedValid s) (ht : TransactionValid t) :
    parseContent (serContent c) = some (c, []) ∧
    parseSigned (serSigned s) = some (s, []) ∧
    parseTransaction (serTransaction t) = some (t, []) ∧
    Transaction.from_bytes (serTransaction t) = .ok t := by
  have h1 := parseContent_ser c hc []
  have h2 := parseSigned_ser s hs []
  have h3 := parseTransaction_ser t ht []
  rw [List.append_nil] at h1 h2 h3
  refine ⟨h1, h2, h3, ?_⟩
  unfold Transaction.from_bytes
  rw [h3]

/-- C8 witness: the round trip evaluated on a concrete transaction. -/
theorem decode_encode_roundtrip_witness :
    parseContent (serContent ⟨[1], [2], [3], 4, 5⟩) = some (⟨[1], [2], [3], 4, 5⟩, []) ∧
    parseSigned (serSigned ⟨⟨[1], [2], [3], 4, 5⟩, [6]⟩) =
      some (⟨⟨[1], [2], [3], 4, 5⟩, [6]⟩, []) ∧
    parseTransaction (serTransaction ⟨[7], ⟨⟨[1], [2], [3], 4, 5⟩, [6]⟩⟩) =
      some (⟨[7], ⟨⟨[1], [2], [3], 4, 5⟩, [6]⟩⟩, []) ∧
    Transaction.from_bytes (serTransaction ⟨[7], ⟨⟨[1], [2], [3], 4, 5⟩, [6]⟩⟩) =
      .ok ⟨[7], ⟨⟨[1], [2], [3], 4, 5⟩, [6]⟩⟩ :=
  decode_encode_roundtrip ⟨[1], [2], [3], 4, 5⟩ ⟨⟨[1], [2], [3], 4, 5⟩, [6]⟩
    ⟨[7], ⟨⟨[1], [2], [3], 4, 5⟩, [6]⟩⟩ (by decide) (by decide) (by decide)

/-- C9: `from_bytes` on any strict prefix of a valid transaction encoding
fails with `MalformedEncoding` (and, the decoder being a total function, it
cannot panic or read out of bounds). -/
theorem from_bytes_truncation_fails (tx : Transaction) (x s : List Nat)
    (hv : TransactionValid tx) (hsplit : serTransaction tx = x ++ s) (hne : s ≠ []) :
    Transaction.from_bytes x = .error CoreError.MalformedEncoding := by
  have hfull : parseTransaction (serTransaction tx) = some (tx, []) := by
    have := parseTransaction_ser tx hv []
    rwa [List.append_nil] at this
  have hnone : parseTransaction x = none :=
    parse_none_of_proper_front parseTransaction_stable hfull hsplit hne
  unfold Transaction.from_bytes
  rw [hnone]

/-- C9 witness: an 8-byte truncation of a concrete valid encoding fails. -/
theorem from_bytes_truncation_fails_witness :
    Transaction.from_bytes (List.replicate 8 0) = .error CoreError.MalformedEncoding :=
  from_bytes_truncation_fails ⟨[], ⟨⟨[], [], [], 0, 0⟩, []⟩⟩
    (List.replicate 8 0) (List.replicate 44 0) (by decide) (by decide) (by decide)

/-- C10: `verify` reads only the signed wrapper, never the id: two
transactions with equal signed parts verify identically, whatever their ids. -/
theorem verify_ignores_id (C : SchnorrModel) (t1 t2 : Transaction)
    (h : t1.transaction = t2.transaction) : t1.verify C = t2.verify C := by
  obtain ⟨i1, s1⟩ := t1
  obtain ⟨i2, s2⟩ := t2
  have h2 : s1 = s2 := h
  subst h2
  rfl

/-- C10 witness: two concrete transactions differing only in id. -/
theorem verify_ignores_id_witness :
    Transaction.verify schnorrAlways ⟨[0], ⟨⟨[], [], [], 0, 0⟩, List.replicate 64 0⟩⟩ =
    Transaction.verify schnorrAlways ⟨[1], ⟨⟨[], [], [], 0, 0⟩, List.replicate 64 0⟩⟩ :=
  verify_ignores_id schnorrAlways ⟨[0], ⟨⟨[], [], [], 0, 0⟩, List.replicate 64 0⟩⟩
    ⟨[1], ⟨⟨[], [], [], 0, 0⟩, List.replicate 64 0⟩⟩ rfl

end Simplechain
